import Mathlib

/-!
Verification development for the Saturn outgoing high-priority telemetry
stream worker (OutHighPriority.c, function OutgoingHighPriority).

The worker is embedded shallowly: each iteration of the Running loop is a
pure function from the thread state and an oracle of environment readings
(hardware registers, FIFO monitor samples, sendmsg result, MOX and per-tick
PTT readings) to a new state plus a record of the cycle's observable
effects.  Machine integers are modelled as Nat with explicit reduction
modulo 2^8, 2^16 or 2^32 exactly where the C types truncate.
-/

set_option maxRecDepth 8192

namespace Saturn

/-- Modelled from the spec: the frame-size macro VHIGHPRIOTIYFROMSDRSIZE is
defined in threaddata.h, which is not among the sources; the spec fixes only
that the frame is a fixed-size buffer whose documented fields end at byte
offset 59, so the smallest consistent size, 60 bytes, is used. -/
def VHIGHPRIOTIYFROMSDRSIZE : Nat := 60

/-- Modelled from the spec: the change-destination command bit
VBITCHANGEPORT of the per-thread command byte is defined in threaddata.h,
which is not among the sources; the spec says only that it is one bit of
the command word, so bit 0 is used. -/
def VBITCHANGEPORT : Nat := 1

/-- Write one byte into the frame buffer (C stores a uint8_t, hence the
reduction mod 256). -/
def writeByte (buf : Nat → Nat) (off v : Nat) : Nat → Nat :=
  fun i => if i = off then v % 256 else buf i

/-- Write a 16-bit value big-endian (htons) at a byte offset. -/
def writeWord16BE (buf : Nat → Nat) (off v : Nat) : Nat → Nat :=
  writeByte (writeByte buf off (v % 65536 / 256)) (off + 1) v

/-- Write a 32-bit value big-endian (htonl) at a byte offset. -/
def writeWord32BE (buf : Nat → Nat) (off v : Nat) : Nat → Nat :=
  writeByte
    (writeByte
      (writeByte
        (writeByte buf off (v % 2 ^ 32 / 2 ^ 24))
        (off + 1) (v % 2 ^ 32 / 2 ^ 16))
      (off + 2) (v % 2 ^ 32 / 2 ^ 8))
    (off + 3) v

/-- Result of one ReadFIFOMonitorChannel call: the overflow, over-threshold
and underflow flags, the 16-bit word written through the Word pointer, and
the returned depth. -/
structure FIFOReading where
  overflow : Bool
  overThreshold : Bool
  underflow : Bool
  word : Nat
  depth : Nat
  deriving Repr, DecidableEq

/-- Environment readings consumed by one iteration of the Running loop. -/
structure CycleInput where
  /-- value of the global SDRActive flag at the top of the iteration -/
  sdrActive : Bool
  /-- GetP2PTTKeyInputs at frame-build time -/
  pttBits : Nat
  /-- GetADCOverflow (destructive read) -/
  adcOverflow : Nat
  /-- GetAnalogueIn, indexed by channel select -/
  analogueIn : Nat → Nat
  /-- GetUserIOBits -/
  userIOBits : Nat
  /-- ReadFIFOMonitorChannel eRXDDCDMA -/
  rxDDC : FIFOReading
  /-- ReadFIFOMonitorChannel eMicCodecDMA -/
  micCodec : FIFOReading
  /-- ReadFIFOMonitorChannel eTXDUCDMA -/
  txDUC : FIFOReading
  /-- ReadFIFOMonitorChannel eSpkCodecDMA -/
  spkCodec : FIFOReading
  /-- return value of sendmsg; -1 signals failure -/
  sendResult : Int
  /-- value of the global MOXAsserted flag when the wait budget is chosen -/
  moxAsserted : Bool
  /-- GetP2PTTKeyInputs as re-read at each tick of the wait loop -/
  tickPTT : Nat → Nat

/-- Per-thread socket bookkeeping (struct ThreadSocketData fields used by
this worker). -/
structure ThreadSocketData where
  socketid : Nat
  cmdid : Nat
  active : Bool

/-- State owned by (or observed through) the worker thread: its socket
data, the local SequenceCounter and frame buffer, the process-wide sticky
GlobalFIFOOverflows byte, the local InitError flag and the process-wide
ThreadError fault indicator. -/
structure ThreadState where
  td : ThreadSocketData
  seq : Nat
  buffer : Nat → Nat
  sticky : Nat
  initError : Bool
  threadError : Bool

/-- Ordered observable effects of one cycle after the frame is built. -/
inductive CycleEvent where
  | sendAttempt (result : Int)
  | atuForward (request : Bool)
  | sleep (ticks : Nat)
  deriving Repr, DecidableEq

/-- Observable record of one Running-loop iteration: the frame bytes as
handed to sendmsg, the ATUTuneRequest value offered to RequestATUTune, and
the ordered effect list. -/
structure CycleRecord where
  frame : List Nat
  atuRequest : Bool
  events : List CycleEvent
  deriving Repr, DecidableEq

instance : Inhabited CycleRecord := ⟨⟨[], false, []⟩⟩

/-- Wait budget chosen after each send: SleepCount is a uint8_t, so the
assignment of the C expression (MOXAsserted)? 2: 400 truncates mod 256. -/
def SleepCount (moxAsserted : Bool) : Nat :=
  (if moxAsserted then 2 else 400) % 256

/-- Inter-frame wait loop, counting the 500 microsecond sleeps performed:
with budget remaining, re-read the key/PTT inputs at tick index i; if they
differ from the captured PTTBits the loop breaks with no further sleep,
otherwise it sleeps one tick and continues. -/
def waitFrom (readings : Nat → Nat) (ptt : Nat) : Nat → Nat → Nat
  | _, 0 => 0
  | i, budget + 1 =>
    if readings i % 256 = ptt then waitFrom readings ptt (i + 1) budget + 1
    else 0

/-- Number of ticks actually slept by the wait loop for a given budget. -/
def waitLoop (budget : Nat) (readings : Nat → Nat) (ptt : Nat) : Nat :=
  waitFrom readings ptt 0 budget

/-- The FIFO error byte built each cycle: input-direction channels (DDC,
mic) contribute their bit on the over-threshold flag, output-direction
channels (DUC, speaker) on the underflow flag. -/
def fifoPolicyBits (inp : CycleInput) : Nat :=
  (if inp.rxDDC.overThreshold then 1 else 0) |||
  (if inp.micCodec.overThreshold then 2 else 0) |||
  (if inp.txDUC.underflow then 4 else 0) |||
  (if inp.spkCodec.underflow then 8 else 0)

/-- The sequence of frame-buffer writes performed by one cycle, in source
order: sequence count, PTT byte, ADC overflow, analogue telemetry, user
bits, raw and scaled FIFO depth words, then the FIFO error byte. -/
def buildBuffer (s : ThreadState) (inp : CycleInput) : Nat → Nat :=
  let buf0 := writeWord32BE s.buffer 0 s.seq
  let buf1 := writeByte buf0 4 (inp.pttBits % 256)
  let buf2 := writeByte buf1 5 inp.adcOverflow
  let buf3 := writeWord16BE buf2 6 (inp.analogueIn 4)
  let buf4 := writeWord16BE buf3 14 (inp.analogueIn 0)
  let buf5 := writeWord16BE buf4 22 (inp.analogueIn 1)
  let buf6 := writeWord16BE buf5 49 (inp.analogueIn 5)
  let buf7 := writeWord16BE buf6 57 (inp.analogueIn 2)
  let buf8 := writeWord16BE buf7 55 (inp.analogueIn 3)
  let buf9 := writeByte buf8 59 (inp.userIOBits % 256)
  let buf10 := writeWord16BE buf9 31 (inp.rxDDC.word % 65536)
  let buf11 := writeWord16BE buf10 33 (inp.micCodec.word % 65536 * 4 % 65536)
  let buf12 := writeWord16BE buf11 35 (inp.txDUC.word % 65536 * 4 / 3 % 65536)
  let buf13 := writeWord16BE buf12 37 (inp.spkCodec.word % 65536 * 2 % 65536)
  writeByte buf13 30 ((fifoPolicyBits inp ||| s.sticky) % 256)

/-- One iteration of the Running loop body: build the frame (incrementing
SequenceCounter), send it, fold and clear the sticky overflow mask, offer
the ATU tune request, record a send failure in InitError, then run the
inter-frame wait loop. -/
def runCycle (s : ThreadState) (inp : CycleInput) : ThreadState × CycleRecord :=
  let buf14 := buildBuffer s inp
  let ptt := inp.pttBits % 256
  let userByte := inp.userIOBits % 256
  let frame := (List.range VHIGHPRIOTIYFROMSDRSIZE).map buf14
  let atuRequest := decide ((userByte >>> 2 &&& 1) ^^^ 1 ≠ 0)
  let failed := decide (inp.sendResult = -1)
  let ticks := waitLoop (SleepCount inp.moxAsserted) inp.tickPTT ptt
  ({ s with
      seq := (s.seq + 1) % 2 ^ 32
      buffer := buf14
      sticky := 0
      initError := s.initError || failed },
   { frame := frame
     atuRequest := atuRequest
     events := [CycleEvent.sendAttempt inp.sendResult,
                CycleEvent.atuForward atuRequest,
                CycleEvent.sleep ticks] })

/-- Inner Running loop: iterate runCycle while SDRActive is read true and
InitError is clear, collecting the cycle records. -/
def runningLoop : ThreadState → List CycleInput → ThreadState × List CycleRecord
  | s, [] => (s, [])
  | s, inp :: rest =>
    if inp.sdrActive && !s.initError then
      let step := runCycle s inp
      let tail := runningLoop step.1 rest
      (tail.1, step.2 :: tail.2)
    else (s, [])

/-- Run-start transition taken when SDRActive becomes true: reset the
sequence counter to 0 and zero the whole frame buffer. -/
def startRunning (s : ThreadState) : ThreadState :=
  { s with seq := 0, buffer := fun _ => 0 }

/-- Environment reading for one ArmedWaiting poll iteration: the socket id
MakeSocket would bind if invoked. -/
structure PollInput where
  newSocket : Nat
  deriving Repr, DecidableEq

/-- Thread-level observable events. -/
inductive ThreadEvent where
  | closeSocket (id : Nat)
  | bindSocket (id : Nat)
  | cycle (rec : CycleRecord)
  | setThreadError
  | setInactive
  deriving Repr, DecidableEq

/-- One ArmedWaiting poll iteration: if the change-destination command bit
is pending, close the current socket, bind a new one and clear the bit;
otherwise do nothing but sleep. -/
def armedPoll (td : ThreadSocketData) (inp : PollInput) :
    ThreadSocketData × List ThreadEvent :=
  if td.cmdid &&& VBITCHANGEPORT ≠ 0 then
    ({ td with socketid := inp.newSocket,
               cmdid := td.cmdid &&& (255 ^^^ VBITCHANGEPORT) },
     [ThreadEvent.closeSocket td.socketid, ThreadEvent.bindSocket inp.newSocket])
  else (td, [])

/-- ArmedWaiting phase: the listed poll iterations happen while SDRActive
reads false; the phase ends when SDRActive turns true. -/
def armedPhase : ThreadSocketData → List PollInput → ThreadSocketData × List ThreadEvent
  | td, [] => (td, [])
  | td, inp :: rest =>
    let step := armedPoll td inp
    let tail := armedPhase step.1 rest
    (tail.1, step.2 ++ tail.2)

/-- One iteration of the outer thread loop: an ArmedWaiting phase, the
run-start transition, then the Running loop. -/
structure EpisodeInput where
  polls : List PollInput
  cycles : List CycleInput

/-- Run one outer-loop iteration and collect its events. -/
def runEpisode (s : ThreadState) (ep : EpisodeInput) : ThreadState × List ThreadEvent :=
  let armed := armedPhase s.td ep.polls
  let s1 := startRunning { s with td := armed.1 }
  let run := runningLoop s1 ep.cycles
  (run.1, armed.2 ++ run.2.map ThreadEvent.cycle)

/-- Shutdown path after the outer loop exits: flag ThreadError when
InitError is set, close the socket, mark the thread inactive and exit. -/
def threadShutdown (s : ThreadState) : ThreadState × List ThreadEvent :=
  ({ s with threadError := s.threadError || s.initError,
            td := { s.td with active := false } },
   (if s.initError then [ThreadEvent.setThreadError] else []) ++
   [ThreadEvent.closeSocket s.td.socketid, ThreadEvent.setInactive])

/-- Whole thread body over a schedule of episodes: episodes are processed
while InitError is clear; once InitError is set the outer loop exits and
the shutdown path runs, discarding the remaining schedule. -/
def threadMain : ThreadState → List EpisodeInput → ThreadState × List ThreadEvent
  | s, [] => if s.initError then threadShutdown s else (s, [])
  | s, ep :: rest =>
    if s.initError then threadShutdown s
    else
      let step := runEpisode s ep
      let tail := threadMain step.1 rest
      (tail.1, step.2 ++ tail.2)

/-- Byte i of a recorded frame. -/
def frameByte (r : CycleRecord) (i : Nat) : Nat :=
  r.frame.getD i 0

/-- Big-endian 16-bit field of a recorded frame at a byte offset. -/
def frameWord16 (r : CycleRecord) (off : Nat) : Nat :=
  frameByte r off * 256 + frameByte r (off + 1)

/-- Big-endian 32-bit sequence-number field in the first 4 bytes. -/
def frameSeq (r : CycleRecord) : Nat :=
  frameByte r 0 * 2 ^ 24 + frameByte r 1 * 2 ^ 16 +
  frameByte r 2 * 2 ^ 8 + frameByte r 3

/-- Byte offsets of the documented fixed-offset fields written by the cycle
loop: sequence 0-3, PTT 4, ADC overflow 5, exciter power 6-7, forward
power 14-15, reverse power 22-23, FIFO error byte 30, DDC samples 31-32,
mic samples 33-34, DUC samples 35-36, speaker samples 37-38, supply voltage
49-50, user analogue 55-58, user bits 59. -/
def documentedOffsets : List Nat :=
  [0, 1, 2, 3, 4, 5, 6, 7, 14, 15, 22, 23, 30, 31, 32, 33, 34, 35, 36, 37,
   38, 49, 50, 55, 56, 57, 58, 59]

/-- Concrete FIFO monitor reading with all flags clear and an empty FIFO,
used to instantiate theorems on explicit inputs. -/
def quietFIFO : FIFOReading :=
  { overflow := false, overThreshold := false, underflow := false,
    word := 0, depth := 0 }

/-- Concrete cycle environment: SDR running, idle key state, quiet FIFOs,
successful send. -/
def sampleCycle : CycleInput :=
  { sdrActive := true
    pttBits := 0
    adcOverflow := 0
    analogueIn := fun _ => 0
    userIOBits := 0
    rxDDC := quietFIFO
    micCodec := quietFIFO
    txDUC := quietFIFO
    spkCodec := quietFIFO
    sendResult := 0
    moxAsserted := false
    tickPTT := fun _ => 0 }

/-- Concrete cycle whose FIFO depths exercise the per-channel multipliers:
mic depth 7, DUC depth 9, speaker depth 10. -/
def depthsCycle : CycleInput :=
  { sampleCycle with
      micCodec := { quietFIFO with word := 7 }
      txDUC := { quietFIFO with word := 9 }
      spkCodec := { quietFIFO with word := 10 } }

/-- Concrete cycle in which the DDC FIFO reports its over-threshold flag. -/
def overflowCycle : CycleInput :=
  { sampleCycle with rxDDC := { quietFIFO with overThreshold := true } }

/-- Concrete cycle whose sendmsg call fails. -/
def failingCycle : CycleInput :=
  { sampleCycle with sendResult := -1 }

/-- Concrete thread state used to instantiate the theorems. -/
def sampleState : ThreadState :=
  { td := { socketid := 3, cmdid := 0, active := true }
    seq := 7
    buffer := fun _ => 0
    sticky := 0
    initError := false
    threadError := false }

/-- Concrete thread socket data with the change-destination command bit
pending. -/
def cmdTD : ThreadSocketData :=
  { socketid := 3, cmdid := VBITCHANGEPORT, active := true }

/-- Concrete ArmedWaiting poll reading offering socket id 9. -/
def samplePoll : PollInput := { newSocket := 9 }

/-- Concrete cycle whose per-tick PTT readings change at tick 5. -/
def changeCycle : CycleInput :=
  { sampleCycle with tickPTT := fun i => if i < 5 then 0 else 1 }

/-- Concrete outer-loop episode: no ArmedWaiting polls, then a single
Running cycle whose send fails. -/
def sampleEpisode : EpisodeInput := { polls := [], cycles := [failingCycle] }

/-- Test for frame-production (cycle) events in a thread event trace. -/
def isCycleEvent : ThreadEvent → Bool
  | ThreadEvent.cycle _ => true
  | _ => false

/-- Test for fault-indicator writes in a thread event trace. -/
def isErrorEvent : ThreadEvent → Bool
  | ThreadEvent.setThreadError => true
  | _ => false

theorem writeByte_ne (buf : Nat → Nat) (off v i : Nat) (h : i ≠ off) :
    writeByte buf off v i = buf i := by
  simp [writeByte, h]

theorem range_map_getD (buf : Nat → Nat) (i : Nat)
    (h : i < VHIGHPRIOTIYFROMSDRSIZE) :
    ((List.range VHIGHPRIOTIYFROMSDRSIZE).map buf).getD i 0 = buf i := by
  rw [List.getD_eq_getElem?_getD, List.getElem?_map, List.getElem?_range h]
  rfl

theorem runCycle_frameByte (s : ThreadState) (inp : CycleInput) (i : Nat)
    (h : i < VHIGHPRIOTIYFROMSDRSIZE) :
    frameByte (runCycle s inp).2 i = buildBuffer s inp i := by
  simp only [runCycle, frameByte]
  exact range_map_getD _ i h

theorem writeByte_at (buf : Nat → Nat) (off v i : Nat) (h : i = off) :
    writeByte buf off v i = v % 256 := by
  simp [writeByte, h]

theorem writeWord16BE_ne (buf : Nat → Nat) (off v i : Nat)
    (h1 : i ≠ off) (h2 : i ≠ off + 1) :
    writeWord16BE buf off v i = buf i := by
  simp [writeWord16BE, writeByte, h1, h2]

theorem writeWord16BE_hi (buf : Nat → Nat) (off v i : Nat) (h : i = off) :
    writeWord16BE buf off v i = v % 65536 / 256 := by
  subst h
  simp only [writeWord16BE, writeByte]
  split_ifs <;> omega

theorem writeWord16BE_lo (buf : Nat → Nat) (off v i : Nat) (h : i = off + 1) :
    writeWord16BE buf off v i = v % 256 := by
  subst h
  simp only [writeWord16BE, writeByte]
  split_ifs <;> omega

theorem writeWord32BE_ne (buf : Nat → Nat) (off v i : Nat)
    (h0 : i ≠ off) (h1 : i ≠ off + 1) (h2 : i ≠ off + 2) (h3 : i ≠ off + 3) :
    writeWord32BE buf off v i = buf i := by
  simp [writeWord32BE, writeByte, h0, h1, h2, h3]

theorem writeWord32BE_b0 (buf : Nat → Nat) (off v i : Nat) (h : i = off) :
    writeWord32BE buf off v i = v % 2 ^ 32 / 2 ^ 24 := by
  subst h
  simp only [writeWord32BE, writeByte]
  split_ifs <;> omega

theorem writeWord32BE_b1 (buf : Nat → Nat) (off v i : Nat) (h : i = off + 1) :
    writeWord32BE buf off v i = v % 2 ^ 32 / 2 ^ 16 % 256 := by
  subst h
  simp only [writeWord32BE, writeByte]
  split_ifs <;> omega

theorem writeWord32BE_b2 (buf : Nat → Nat) (off v i : Nat) (h : i = off + 2) :
    writeWord32BE buf off v i = v % 2 ^ 32 / 2 ^ 8 % 256 := by
  subst h
  simp only [writeWord32BE, writeByte]
  split_ifs <;> omega

theorem writeWord32BE_b3 (buf : Nat → Nat) (off v i : Nat) (h : i = off + 3) :
    writeWord32BE buf off v i = v % 256 := by
  subst h
  simp only [writeWord32BE, writeByte]
  split_ifs <;> omega

theorem buildBuffer_byte30 (s : ThreadState) (inp : CycleInput) :
    buildBuffer s inp 30 = (fifoPolicyBits inp ||| s.sticky) % 256 := by
  simp only [buildBuffer]
  rw [writeByte_at _ _ _ _ rfl]
  omega

theorem buildBuffer_byte59 (s : ThreadState) (inp : CycleInput) :
    buildBuffer s inp 59 = inp.userIOBits % 256 := by
  simp only [buildBuffer]
  rw [writeByte_ne _ _ _ 59 (by decide),
      writeWord16BE_ne _ _ _ 59 (by decide) (by decide),
      writeWord16BE_ne _ _ _ 59 (by decide) (by decide),
      writeWord16BE_ne _ _ _ 59 (by decide) (by decide),
      writeWord16BE_ne _ _ _ 59 (by decide) (by decide),
      writeByte_at _ _ _ _ rfl]
  omega

theorem buildBuffer_byte33 (s : ThreadState) (inp : CycleInput) :
    buildBuffer s inp 33 = inp.micCodec.word % 65536 * 4 % 65536 / 256 := by
  simp only [buildBuffer]
  rw [writeByte_ne _ _ _ 33 (by decide),
      writeWord16BE_ne _ _ _ 33 (by decide) (by decide),
      writeWord16BE_ne _ _ _ 33 (by decide) (by decide),
      writeWord16BE_hi _ _ _ _ rfl]
  omega

theorem buildBuffer_byte34 (s : ThreadState) (inp : CycleInput) :
    buildBuffer s inp 34 = inp.micCodec.word % 65536 * 4 % 65536 % 256 := by
  simp only [buildBuffer]
  rw [writeByte_ne _ _ _ 34 (by decide),
      writeWord16BE_ne _ _ _ 34 (by decide) (by decide),
      writeWord16BE_ne _ _ _ 34 (by decide) (by decide),
      writeWord16BE_lo _ _ _ _ (by decide)]

theorem buildBuffer_byte35 (s : ThreadState) (inp : CycleInput) :
    buildBuffer s inp 35 = inp.txDUC.word % 65536 * 4 / 3 % 65536 / 256 := by
  simp only [buildBuffer]
  rw [writeByte_ne _ _ _ 35 (by decide),
      writeWord16BE_ne _ _ _ 35 (by decide) (by decide),
      writeWord16BE_hi _ _ _ _ rfl]
  omega

theorem buildBuffer_byte36 (s : ThreadState) (inp : CycleInput) :
    buildBuffer s inp 36 = inp.txDUC.word % 65536 * 4 / 3 % 65536 % 256 := by
  simp only [buildBuffer]
  rw [writeByte_ne _ _ _ 36 (by decide),
      writeWord16BE_ne _ _ _ 36 (by decide) (by decide),
      writeWord16BE_lo _ _ _ _ (by decide)]

theorem buildBuffer_byte37 (s : ThreadState) (inp : CycleInput) :
    buildBuffer s inp 37 = inp.spkCodec.word % 65536 * 2 % 65536 / 256 := by
  simp only [buildBuffer]
  rw [writeByte_ne _ _ _ 37 (by decide),
      writeWord16BE_hi _ _ _ _ rfl]
  omega

theorem buildBuffer_byte38 (s : ThreadState) (inp : CycleInput) :
    buildBuffer s inp 38 = inp.spkCodec.word % 65536 * 2 % 65536 % 256 := by
  simp only [buildBuffer]
  rw [writeByte_ne _ _ _ 38 (by decide),
      writeWord16BE_lo _ _ _ _ (by decide)]

theorem buildBuffer_seqByte0 (s : ThreadState) (inp : CycleInput) :
    buildBuffer s inp 0 = s.seq % 2 ^ 32 / 2 ^ 24 := by
  simp only [buildBuffer]
  rw [writeByte_ne _ _ _ 0 (by decide),
      writeWord16BE_ne _ _ _ 0 (by decide) (by decide),
      writeWord16BE_ne _ _ _ 0 (by decide) (by decide),
      writeWord16BE_ne _ _ _ 0 (by decide) (by decide),
      writeWord16BE_ne _ _ _ 0 (by decide) (by decide),
      writeByte_ne _ _ _ 0 (by decide),
      writeWord16BE_ne _ _ _ 0 (by decide) (by decide),
      writeWord16BE_ne _ _ _ 0 (by decide) (by decide),
      writeWord16BE_ne _ _ _ 0 (by decide) (by decide),
      writeWord16BE_ne _ _ _ 0 (by decide) (by decide),
      writeWord16BE_ne _ _ _ 0 (by decide) (by decide),
      writeWord16BE_ne _ _ _ 0 (by decide) (by decide),
      writeByte_ne _ _ _ 0 (by decide),
      writeByte_ne _ _ _ 0 (by decide),
      writeWord32BE_b0 _ _ _ _ rfl]

theorem buildBuffer_seqByte1 (s : ThreadState) (inp : CycleInput) :
    buildBuffer s inp 1 = s.seq % 2 ^ 32 / 2 ^ 16 % 256 := by
  simp only [buildBuffer]
  rw [writeByte_ne _ _ _ 1 (by decide),
      writeWord16BE_ne _ _ _ 1 (by decide) (by decide),
      writeWord16BE_ne _ _ _ 1 (by decide) (by decide),
      writeWord16BE_ne _ _ _ 1 (by decide) (by decide),
      writeWord16BE_ne _ _ _ 1 (by decide) (by decide),
      writeByte_ne _ _ _ 1 (by decide),
      writeWord16BE_ne _ _ _ 1 (by decide) (by decide),
      writeWord16BE_ne _ _ _ 1 (by decide) (by decide),
      writeWord16BE_ne _ _ _ 1 (by decide) (by decide),
      writeWord16BE_ne _ _ _ 1 (by decide) (by decide),
      writeWord16BE_ne _ _ _ 1 (by decide) (by decide),
      writeWord16BE_ne _ _ _ 1 (by decide) (by decide),
      writeByte_ne _ _ _ 1 (by decide),
      writeByte_ne _ _ _ 1 (by decide),
      writeWord32BE_b1 _ _ _ _ (by decide)]

theorem buildBuffer_seqByte2 (s : ThreadState) (inp : CycleInput) :
    buildBuffer s inp 2 = s.seq % 2 ^ 32 / 2 ^ 8 % 256 := by
  simp only [buildBuffer]
  rw [writeByte_ne _ _ _ 2 (by decide),
      writeWord16BE_ne _ _ _ 2 (by decide) (by decide),
      writeWord16BE_ne _ _ _ 2 (by decide) (by decide),
      writeWord16BE_ne _ _ _ 2 (by decide) (by decide),
      writeWord16BE_ne _ _ _ 2 (by decide) (by decide),
      writeByte_ne _ _ _ 2 (by decide),
      writeWord16BE_ne _ _ _ 2 (by decide) (by decide),
      writeWord16BE_ne _ _ _ 2 (by decide) (by decide),
      writeWord16BE_ne _ _ _ 2 (by decide) (by decide),
      writeWord16BE_ne _ _ _ 2 (by decide) (by decide),
      writeWord16BE_ne _ _ _ 2 (by decide) (by decide),
      writeWord16BE_ne _ _ _ 2 (by decide) (by decide),
      writeByte_ne _ _ _ 2 (by decide),
      writeByte_ne _ _ _ 2 (by decide),
      writeWord32BE_b2 _ _ _ _ (by decide)]

theorem buildBuffer_seqByte3 (s : ThreadState) (inp : CycleInput) :
    buildBuffer s inp 3 = s.seq % 256 := by
  simp only [buildBuffer]
  rw [writeByte_ne _ _ _ 3 (by decide),
      writeWord16BE_ne _ _ _ 3 (by decide) (by decide),
      writeWord16BE_ne _ _ _ 3 (by decide) (by decide),
      writeWord16BE_ne _ _ _ 3 (by decide) (by decide),
      writeWord16BE_ne _ _ _ 3 (by decide) (by decide),
      writeByte_ne _ _ _ 3 (by decide),
      writeWord16BE_ne _ _ _ 3 (by decide) (by decide),
      writeWord16BE_ne _ _ _ 3 (by decide) (by decide),
      writeWord16BE_ne _ _ _ 3 (by decide) (by decide),
      writeWord16BE_ne _ _ _ 3 (by decide) (by decide),
      writeWord16BE_ne _ _ _ 3 (by decide) (by decide),
      writeWord16BE_ne _ _ _ 3 (by decide) (by decide),
      writeByte_ne _ _ _ 3 (by decide),
      writeByte_ne _ _ _ 3 (by decide),
      writeWord32BE_b3 _ _ _ _ (by decide)]

theorem buildBuffer_not_documented (s : ThreadState) (inp : CycleInput)
    (i : Nat) (h : i ∉ documentedOffsets) :
    buildBuffer s inp i = s.buffer i := by
  simp only [documentedOffsets, List.mem_cons, List.not_mem_nil, or_false,
    not_or] at h
  obtain ⟨h0, h1, h2, h3, h4, h5, h6, h7, h14, h15, h22, h23, h30, h31, h32,
    h33, h34, h35, h36, h37, h38, h49, h50, h55, h56, h57, h58, h59⟩ := h
  simp only [buildBuffer]
  rw [writeByte_ne _ _ _ _ h30,
      writeWord16BE_ne _ _ _ _ h37 h38,
      writeWord16BE_ne _ _ _ _ h35 h36,
      writeWord16BE_ne _ _ _ _ h33 h34,
      writeWord16BE_ne _ _ _ _ h31 h32,
      writeByte_ne _ _ _ _ h59,
      writeWord16BE_ne _ _ _ _ h55 h56,
      writeWord16BE_ne _ _ _ _ h57 h58,
      writeWord16BE_ne _ _ _ _ h49 h50,
      writeWord16BE_ne _ _ _ _ h22 h23,
      writeWord16BE_ne _ _ _ _ h14 h15,
      writeWord16BE_ne _ _ _ _ h6 h7,
      writeByte_ne _ _ _ _ h5,
      writeByte_ne _ _ _ _ h4,
      writeWord32BE_ne _ _ _ _ h0 h1 h2 h3]

theorem runCycle_state (s : ThreadState) (inp : CycleInput) :
    (runCycle s inp).1 =
      { s with
          seq := (s.seq + 1) % 2 ^ 32
          buffer := buildBuffer s inp
          sticky := 0
          initError := s.initError || decide (inp.sendResult = -1) } := rfl

theorem runCycle_frame_length (s : ThreadState) (inp : CycleInput) :
    (runCycle s inp).2.frame.length = VHIGHPRIOTIYFROMSDRSIZE := by
  simp [runCycle]

theorem runCycle_frameByte_oob (s : ThreadState) (inp : CycleInput) (i : Nat)
    (h : VHIGHPRIOTIYFROMSDRSIZE ≤ i) :
    frameByte (runCycle s inp).2 i = 0 := by
  simp only [frameByte]
  rw [List.getD_eq_default]
  rw [runCycle_frame_length]
  exact h

theorem frameSeq_runCycle (s : ThreadState) (inp : CycleInput) :
    frameSeq (runCycle s inp).2 = s.seq % 2 ^ 32 := by
  unfold frameSeq
  rw [runCycle_frameByte _ _ 0 (by decide), runCycle_frameByte _ _ 1 (by decide),
      runCycle_frameByte _ _ 2 (by decide), runCycle_frameByte _ _ 3 (by decide),
      buildBuffer_seqByte0, buildBuffer_seqByte1, buildBuffer_seqByte2,
      buildBuffer_seqByte3]
  omega

theorem runningLoop_seq (s : ThreadState) (cycles : List CycleInput) (n : Nat)
    (hn : n < (runningLoop s cycles).2.length) :
    frameSeq ((runningLoop s cycles).2.getD n default) = (s.seq + n) % 2 ^ 32 := by
  induction cycles generalizing s n with
  | nil => simp [runningLoop] at hn
  | cons inp rest ih =>
    by_cases hc : inp.sdrActive && !s.initError
    · rw [runningLoop] at hn ⊢
      simp only [hc, if_true] at hn ⊢
      match n with
      | 0 =>
        simpa using frameSeq_runCycle s inp
      | n + 1 =>
        simp only [List.getD_cons_succ]
        simp only [List.length_cons, Nat.add_lt_add_iff_right] at hn
        rw [ih _ _ hn, runCycle_state]
        simp only
        omega
    · rw [runningLoop] at hn
      simp [hc] at hn

/-- C1: within one Running episode the sent 4-byte sequence numbers of
consecutive frames increase by exactly 1 modulo 2^32 (no gaps, no repeats),
and the run-start transition resets the sequence counter to 0 regardless of
its prior value. -/
theorem seq_consecutive_and_reset (s : ThreadState) (cycles : List CycleInput)
    (n : Nat) (hn : n + 1 < (runningLoop (startRunning s) cycles).2.length) :
    frameSeq ((runningLoop (startRunning s) cycles).2.getD (n + 1) default) =
      (frameSeq ((runningLoop (startRunning s) cycles).2.getD n default) + 1)
        % 2 ^ 32 ∧
    (startRunning s).seq = 0 := by
  constructor
  · rw [runningLoop_seq _ _ _ hn, runningLoop_seq _ _ _ (by omega)]
    simp only [startRunning]
    omega
  · rfl

theorem seq_consecutive_and_reset_witness :
    frameSeq ((runningLoop (startRunning sampleState)
        [sampleCycle, sampleCycle]).2.getD 1 default) =
      (frameSeq ((runningLoop (startRunning sampleState)
        [sampleCycle, sampleCycle]).2.getD 0 default) + 1) % 2 ^ 32 ∧
    (startRunning sampleState).seq = 0 :=
  seq_consecutive_and_reset sampleState [sampleCycle, sampleCycle] 0 (by decide)

/-- C4: the 2-byte sample-availability counts are the raw FIFO depth word
scaled per channel with integer truncation: mic count = depth times 4, DUC
count = depth times 4 divided by 3 truncating, speaker count = depth times
2 (whenever the scaled counts fit the 16-bit field). -/
theorem fifo_sample_counts (s : ThreadState) (inp : CycleInput)
    (hmic : inp.micCodec.word * 4 < 65536)
    (hduc : inp.txDUC.word * 4 / 3 < 65536)
    (hspk : inp.spkCodec.word * 2 < 65536) :
    frameWord16 (runCycle s inp).2 33 = inp.micCodec.word * 4 ∧
    frameWord16 (runCycle s inp).2 35 = inp.txDUC.word * 4 / 3 ∧
    frameWord16 (runCycle s inp).2 37 = inp.spkCodec.word * 2 := by
  simp only [frameWord16, Nat.reduceAdd]
  rw [runCycle_frameByte _ _ 33 (by decide), runCycle_frameByte _ _ 34 (by decide),
      runCycle_frameByte _ _ 35 (by decide), runCycle_frameByte _ _ 36 (by decide),
      runCycle_frameByte _ _ 37 (by decide), runCycle_frameByte _ _ 38 (by decide),
      buildBuffer_byte33, buildBuffer_byte34, buildBuffer_byte35,
      buildBuffer_byte36, buildBuffer_byte37, buildBuffer_byte38]
  have hw : inp.txDUC.word < 65536 := by omega
  have hm : inp.micCodec.word < 65536 := by omega
  have hs2 : inp.spkCodec.word < 65536 := by omega
  rw [Nat.mod_eq_of_lt hw, Nat.mod_eq_of_lt hm, Nat.mod_eq_of_lt hs2]
  refine ⟨by omega, by omega, by omega⟩

theorem fifo_sample_counts_witness :
    frameWord16 (runCycle sampleState depthsCycle).2 33 = 28 ∧
    frameWord16 (runCycle sampleState depthsCycle).2 35 = 12 ∧
    frameWord16 (runCycle sampleState depthsCycle).2 37 = 20 :=
  fifo_sample_counts sampleState depthsCycle (by decide) (by decide) (by decide)

theorem atuBit (u : Nat) :
    decide ((u >>> 2 &&& 1) ^^^ 1 ≠ 0) = !(Nat.testBit u 2) := by
  rw [Nat.testBit_to_div_mod, Nat.and_one_is_mod, Nat.shiftRight_eq_div_pow]
  rcases Nat.mod_two_eq_zero_or_one (u / 4) with h | h <;>
    simp [show (2 : Nat) ^ 2 = 4 from rfl, h]

/-- C9: the ATU tune-request boolean offered once per cycle equals the
inversion of bit 2 of the user-I/O byte captured at offset 59 of that
frame, and it is a pure function of the current cycle reading, independent
of all thread state. -/
theorem atu_relay (s s2 : ThreadState) (inp : CycleInput) :
    (runCycle s inp).2.atuRequest =
      !(Nat.testBit (frameByte (runCycle s inp).2 59) 2) ∧
    (runCycle s inp).2.events.countP
      (fun e => match e with | CycleEvent.atuForward _ => true | _ => false)
      = 1 ∧
    (runCycle s2 inp).2.atuRequest = (runCycle s inp).2.atuRequest := by
  refine ⟨?_, rfl, rfl⟩
  rw [runCycle_frameByte _ _ 59 (by decide), buildBuffer_byte59]
  exact atuBit (inp.userIOBits % 256)

theorem fifoPolicyBits_lt (inp : CycleInput) : fifoPolicyBits inp < 16 := by
  unfold fifoPolicyBits
  split_ifs <;> decide

/-- C5: each cycle's FIFO error byte is the OR of the DDC and mic bits
(contributed on the over-threshold flag), the DUC and speaker bits
(contributed on the underflow flag) and the process-wide sticky mask; the
sticky mask is cleared afterward, so a flag observed in cycle K appears in
cycle K's mask and, with cycle K+1's flags clear and no racing writers, is
absent from cycle K+1's mask. -/
theorem fifo_error_byte_policy (s : ThreadState) (inp inp2 : CycleInput)
    (hs : s.sticky < 256)
    (h1 : inp2.rxDDC.overThreshold = false)
    (h2 : inp2.micCodec.overThreshold = false)
    (h3 : inp2.txDUC.underflow = false)
    (h4 : inp2.spkCodec.underflow = false) :
    frameByte (runCycle s inp).2 30 =
      ((if inp.rxDDC.overThreshold then 1 else 0) |||
       (if inp.micCodec.overThreshold then 2 else 0) |||
       (if inp.txDUC.underflow then 4 else 0) |||
       (if inp.spkCodec.underflow then 8 else 0) ||| s.sticky) ∧
    (runCycle s inp).1.sticky = 0 ∧
    (inp.rxDDC.overThreshold = true →
      Nat.testBit (frameByte (runCycle s inp).2 30) 0 = true) ∧
    (inp.micCodec.overThreshold = true →
      Nat.testBit (frameByte (runCycle s inp).2 30) 1 = true) ∧
    (inp.txDUC.underflow = true →
      Nat.testBit (frameByte (runCycle s inp).2 30) 2 = true) ∧
    (inp.spkCodec.underflow = true →
      Nat.testBit (frameByte (runCycle s inp).2 30) 3 = true) ∧
    frameByte (runCycle (runCycle s inp).1 inp2).2 30 = 0 := by
  have hlt : fifoPolicyBits inp ||| s.sticky < 256 :=
    Nat.or_lt_two_pow (n := 8)
      (lt_trans (fifoPolicyBits_lt inp) (by norm_num)) hs
  have hmask : frameByte (runCycle s inp).2 30 = fifoPolicyBits inp ||| s.sticky := by
    rw [runCycle_frameByte _ _ 30 (by decide), buildBuffer_byte30,
        Nat.mod_eq_of_lt hlt]
  refine ⟨hmask, rfl, ?_, ?_, ?_, ?_, ?_⟩
  · intro hf
    rw [hmask]
    simp [Nat.testBit_or, fifoPolicyBits, hf]
  · intro hf
    rw [hmask]
    simp [Nat.testBit_or, fifoPolicyBits, hf,
      show Nat.testBit 2 1 = true from by decide]
  · intro hf
    rw [hmask]
    simp [Nat.testBit_or, fifoPolicyBits, hf,
      show Nat.testBit 4 2 = true from by decide]
  · intro hf
    rw [hmask]
    simp [Nat.testBit_or, fifoPolicyBits, hf,
      show Nat.testBit 8 3 = true from by decide]
  · rw [runCycle_frameByte _ _ 30 (by decide), buildBuffer_byte30]
    have hsk : (runCycle s inp).1.sticky = 0 := rfl
    rw [hsk]
    simp [fifoPolicyBits, h1, h2, h3, h4]

theorem runningLoop_frames_zero (s : ThreadState) (cycles : List CycleInput)
    (hz : ∀ i, i ∉ documentedOffsets → s.buffer i = 0) :
    ∀ rec ∈ (runningLoop s cycles).2,
      rec.frame.length = VHIGHPRIOTIYFROMSDRSIZE ∧
      ∀ i, i ∉ documentedOffsets → frameByte rec i = 0 := by
  induction cycles generalizing s with
  | nil =>
    intro rec h
    rw [runningLoop] at h
    simp at h
  | cons inp rest ih =>
    intro rec h
    rw [runningLoop] at h
    by_cases hc : inp.sdrActive && !s.initError
    · simp only [hc, if_true, List.mem_cons] at h
      rcases h with h | h
      · subst h
        refine ⟨runCycle_frame_length s inp, ?_⟩
        intro i hi
        by_cases hlt : i < VHIGHPRIOTIYFROMSDRSIZE
        · rw [runCycle_frameByte _ _ _ hlt, buildBuffer_not_documented _ _ _ hi]
          exact hz i hi
        · exact runCycle_frameByte_oob s inp i (by omega)
      · refine ih _ ?_ rec h
        intro i hi
        show buildBuffer s inp i = 0
        rw [buildBuffer_not_documented _ _ _ hi]
        exact hz i hi
    · simp [hc] at h

/-- C8: every frame of a Running episode has the fixed total byte length,
and every byte outside the documented fixed-offset fields is zero in every
frame from the first frame of the run onward. -/
theorem frame_size_and_zero_fill (s : ThreadState) (cycles : List CycleInput)
    (rec : CycleRecord) (hrec : rec ∈ (runningLoop (startRunning s) cycles).2)
    (i : Nat) (hi : i ∉ documentedOffsets) :
    rec.frame.length = VHIGHPRIOTIYFROMSDRSIZE ∧ frameByte rec i = 0 := by
  have h := runningLoop_frames_zero (startRunning s) cycles
    (fun j hj => rfl) rec hrec
  exact ⟨h.1, h.2 i hi⟩

theorem frame_size_and_zero_fill_witness :
    ((runningLoop (startRunning sampleState) [sampleCycle]).2.getD 0
        default).frame.length = VHIGHPRIOTIYFROMSDRSIZE ∧
    frameByte ((runningLoop (startRunning sampleState) [sampleCycle]).2.getD 0
        default) 8 = 0 :=
  frame_size_and_zero_fill sampleState [sampleCycle] _ (by decide) 8 (by decide)

theorem fifo_error_byte_policy_witness :
    frameByte (runCycle sampleState overflowCycle).2 30 =
      ((if overflowCycle.rxDDC.overThreshold then 1 else 0) |||
       (if overflowCycle.micCodec.overThreshold then 2 else 0) |||
       (if overflowCycle.txDUC.underflow then 4 else 0) |||
       (if overflowCycle.spkCodec.underflow then 8 else 0) |||
       sampleState.sticky) ∧
    (runCycle sampleState overflowCycle).1.sticky = 0 ∧
    (overflowCycle.rxDDC.overThreshold = true →
      Nat.testBit (frameByte (runCycle sampleState overflowCycle).2 30) 0 = true) ∧
    (overflowCycle.micCodec.overThreshold = true →
      Nat.testBit (frameByte (runCycle sampleState overflowCycle).2 30) 1 = true) ∧
    (overflowCycle.txDUC.underflow = true →
      Nat.testBit (frameByte (runCycle sampleState overflowCycle).2 30) 2 = true) ∧
    (overflowCycle.spkCodec.underflow = true →
      Nat.testBit (frameByte (runCycle sampleState overflowCycle).2 30) 3 = true) ∧
    frameByte (runCycle (runCycle sampleState overflowCycle).1 sampleCycle).2 30
      = 0 :=
  fifo_error_byte_policy sampleState overflowCycle sampleCycle
    (by decide) (by decide) (by decide) (by decide) (by decide)

/-- C2: the wait budget after a send is 2 ticks while keyed, but the
not-keyed budget is 144 ticks rather than the documented 400: SleepCount is
declared uint8_t, so the assignment of 400 truncates modulo 256. -/
theorem sleep_budget_values :
    SleepCount true = 2 ∧ SleepCount false = 144 ∧ SleepCount false ≠ 400 := by
  decide

theorem waitFrom_change (readings : Nat → Nat) (ptt : Nat)
    (budget i j : Nat) (hj : j < budget)
    (hdiff : readings (i + j) % 256 ≠ ptt)
    (hsame : ∀ k, k < j → readings (i + k) % 256 = ptt) :
    waitFrom readings ptt i budget = j := by
  induction budget generalizing i j with
  | zero => omega
  | succ b ih =>
    match j with
    | 0 =>
      rw [waitFrom]
      rw [Nat.add_zero] at hdiff
      simp [hdiff]
    | j + 1 =>
      have hsame0 := hsame 0 (by omega)
      rw [Nat.add_zero] at hsame0
      rw [waitFrom, if_pos hsame0]
      have hd : readings (i + 1 + j) % 256 ≠ ptt := by
        have : i + 1 + j = i + (j + 1) := by omega
        rw [this]
        exact hdiff
      have hs : ∀ k, k < j → readings (i + 1 + k) % 256 = ptt := by
        intro k hk
        have : i + 1 + k = i + (k + 1) := by omega
        rw [this]
        exact hsame (k + 1) (by omega)
      rw [ih (i + 1) j (by omega) hd hs]

/-- C3: during the inter-frame wait the key/PTT bits are re-read each tick
and compared with the value captured when the frame was built; if the first
differing reading occurs at tick j within the budget, the wait loop exits
after exactly j sleeps instead of consuming the remaining budget, and the
cycle's sleep event records those j ticks. -/
theorem wait_aborts_on_ptt_change (s : ThreadState) (inp : CycleInput)
    (j : Nat) (hj : j < SleepCount inp.moxAsserted)
    (hdiff : inp.tickPTT j % 256 ≠ inp.pttBits % 256)
    (hsame : ∀ k, k < j → inp.tickPTT k % 256 = inp.pttBits % 256) :
    waitLoop (SleepCount inp.moxAsserted) inp.tickPTT (inp.pttBits % 256) = j ∧
    (runCycle s inp).2.events =
      [CycleEvent.sendAttempt inp.sendResult,
       CycleEvent.atuForward (runCycle s inp).2.atuRequest,
       CycleEvent.sleep j] := by
  have hw : waitLoop (SleepCount inp.moxAsserted) inp.tickPTT
      (inp.pttBits % 256) = j := by
    unfold waitLoop
    exact waitFrom_change inp.tickPTT (inp.pttBits % 256) _ 0 j hj
      (by simpa using hdiff) (fun k hk => by simpa using hsame k hk)
  refine ⟨hw, ?_⟩
  show [CycleEvent.sendAttempt inp.sendResult,
        CycleEvent.atuForward (runCycle s inp).2.atuRequest,
        CycleEvent.sleep (waitLoop (SleepCount inp.moxAsserted) inp.tickPTT
          (inp.pttBits % 256))] = _
  rw [hw]

theorem wait_aborts_on_ptt_change_witness :
    waitLoop (SleepCount changeCycle.moxAsserted) changeCycle.tickPTT
      (changeCycle.pttBits % 256) = 5 ∧
    (runCycle sampleState changeCycle).2.events =
      [CycleEvent.sendAttempt changeCycle.sendResult,
       CycleEvent.atuForward (runCycle sampleState changeCycle).2.atuRequest,
       CycleEvent.sleep 5] :=
  wait_aborts_on_ptt_change sampleState changeCycle 5
    (by decide) (by decide) (by decide)

theorem runningLoop_error (s : ThreadState) (cycles : List CycleInput)
    (h : s.initError = true) : runningLoop s cycles = (s, []) := by
  cases cycles <;> simp [runningLoop, h]

/-- C10: on a cycle whose send fails nothing is rolled back and the cycle
still completes: the sequence counter stays incremented, the sticky
overflow mask has been read and cleared, the ATU request is still forwarded
after the failed send attempt, the full inter-frame wait loop still runs,
and only then does the Running loop stop: no further cycle executes. -/
theorem failed_send_cycle_completes (s : ThreadState) (inp : CycleInput)
    (rest : List CycleInput) (hfail : inp.sendResult = -1)
    (hactive : inp.sdrActive = true) (hok : s.initError = false) :
    (runCycle s inp).1.seq = (s.seq + 1) % 2 ^ 32 ∧
    (runCycle s inp).1.sticky = 0 ∧
    (runCycle s inp).2.events =
      [CycleEvent.sendAttempt (-1),
       CycleEvent.atuForward (runCycle s inp).2.atuRequest,
       CycleEvent.sleep (waitLoop (SleepCount inp.moxAsserted) inp.tickPTT
         (inp.pttBits % 256))] ∧
    (runCycle s inp).1.initError = true ∧
    (runningLoop s (inp :: rest)).2 = [(runCycle s inp).2] := by
  have herr : (runCycle s inp).1.initError = true := by
    rw [runCycle_state]
    simp [hok, hfail]
  refine ⟨rfl, rfl, ?_, herr, ?_⟩
  · show [CycleEvent.sendAttempt inp.sendResult,
          CycleEvent.atuForward (runCycle s inp).2.atuRequest,
          CycleEvent.sleep (waitLoop (SleepCount inp.moxAsserted) inp.tickPTT
            (inp.pttBits % 256))] = _
    rw [hfail]
  · rw [runningLoop]
    simp only [hactive, hok, Bool.not_false, Bool.and_self, if_true]
    rw [runningLoop_error _ _ herr]

theorem failed_send_cycle_completes_witness :
    (runCycle sampleState failingCycle).1.seq = (sampleState.seq + 1) % 2 ^ 32 ∧
    (runCycle sampleState failingCycle).1.sticky = 0 ∧
    (runCycle sampleState failingCycle).2.events =
      [CycleEvent.sendAttempt (-1),
       CycleEvent.atuForward (runCycle sampleState failingCycle).2.atuRequest,
       CycleEvent.sleep (waitLoop (SleepCount failingCycle.moxAsserted)
         failingCycle.tickPTT (failingCycle.pttBits % 256))] ∧
    (runCycle sampleState failingCycle).1.initError = true ∧
    (runningLoop sampleState [failingCycle, sampleCycle]).2 =
      [(runCycle sampleState failingCycle).2] :=
  failed_send_cycle_completes sampleState failingCycle [sampleCycle]
    (by decide) (by decide) (by decide)

theorem runningLoop_preserves (s : ThreadState) (cycles : List CycleInput) :
    (runningLoop s cycles).1.td = s.td ∧
    (runningLoop s cycles).1.threadError = s.threadError := by
  induction cycles generalizing s with
  | nil => exact ⟨rfl, rfl⟩
  | cons c cs ih =>
    rw [runningLoop]
    by_cases hc : c.sdrActive && !s.initError
    · rw [if_pos hc]
      exact ih (runCycle s c).1
    · rw [if_neg hc]
      exact ⟨rfl, rfl⟩

theorem armedPhase_no_cmd (td : ThreadSocketData) (polls : List PollInput)
    (h : td.cmdid &&& VBITCHANGEPORT = 0) :
    armedPhase td polls = (td, []) := by
  induction polls with
  | nil => rfl
  | cons p ps ih =>
    have hp : armedPoll td p = (td, []) := by
      unfold armedPoll
      rw [if_neg (fun hne => hne h)]
    rw [armedPhase, hp, ih]
    rfl

theorem threadMain_error (s : ThreadState) (eps : List EpisodeInput)
    (h : s.initError = true) : threadMain s eps = threadShutdown s := by
  cases eps <;> simp [threadMain, h]

theorem runningLoop_until_failure (s : ThreadState) (pre : List CycleInput)
    (bad : CycleInput) (post : List CycleInput)
    (hpre : ∀ c ∈ pre, c.sendResult ≠ -1 ∧ c.sdrActive = true)
    (hbad : bad.sendResult = -1) (hbadactive : bad.sdrActive = true)
    (hok : s.initError = false) :
    (runningLoop s (pre ++ bad :: post)).2.length = pre.length + 1 ∧
    (runningLoop s (pre ++ bad :: post)).1.initError = true := by
  induction pre generalizing s with
  | nil =>
    rw [List.nil_append, runningLoop]
    have hc : (bad.sdrActive && !s.initError) = true := by
      simp [hbadactive, hok]
    simp only [hc, if_true]
    have herr : (runCycle s bad).1.initError = true := by
      show (s.initError || decide (bad.sendResult = -1)) = true
      simp [hok, hbad]
    rw [runningLoop_error _ _ herr]
    exact ⟨by simp, herr⟩
  | cons c cs ih =>
    obtain ⟨hcs, hca⟩ := hpre c (List.mem_cons_self c cs)
    rw [List.cons_append, runningLoop]
    have hc : (c.sdrActive && !s.initError) = true := by simp [hca, hok]
    simp only [hc, if_true]
    have hok2 : (runCycle s c).1.initError = false := by
      show (s.initError || decide (c.sendResult = -1)) = false
      rw [hok, Bool.false_or]
      exact decide_eq_false hcs
    have h2 := ih (runCycle s c).1
      (fun x hx => hpre x (List.mem_cons_of_mem c hx)) hok2
    exact ⟨by simp [h2.1], h2.2⟩

/-- C6: a transport send failure is fatal to the stream and never retried:
with the failing cycle at position k of the Running schedule, exactly k+1
frames are built and sent in total (none after the failure, in this episode
or any later one), the worker leaves the Running loop, sets the
process-wide fault indicator exactly once, closes its socket, marks itself
inactive and exits. -/
theorem send_failure_fatal (s : ThreadState) (ep : EpisodeInput)
    (rest : List EpisodeInput) (pre : List CycleInput) (bad : CycleInput)
    (post : List CycleInput)
    (hcyc : ep.cycles = pre ++ bad :: post)
    (hpre : ∀ c ∈ pre, c.sendResult ≠ -1 ∧ c.sdrActive = true)
    (hbad : bad.sendResult = -1) (hbadactive : bad.sdrActive = true)
    (hok : s.initError = false) (_hterr : s.threadError = false)
    (hcmd : s.td.cmdid &&& VBITCHANGEPORT = 0) :
    (threadMain s (ep :: rest)).2.countP isCycleEvent = pre.length + 1 ∧
    (threadMain s (ep :: rest)).2.countP isErrorEvent = 1 ∧
    (threadMain s (ep :: rest)).1.threadError = true ∧
    (threadMain s (ep :: rest)).1.td.active = false ∧
    ThreadEvent.closeSocket s.td.socketid ∈ (threadMain s (ep :: rest)).2 := by
  have harm : armedPhase s.td ep.polls = (s.td, []) :=
    armedPhase_no_cmd s.td ep.polls hcmd
  have hrun := runningLoop_until_failure (startRunning s) pre bad post
    hpre hbad hbadactive hok
  rw [← hcyc] at hrun
  have hpres := runningLoop_preserves (startRunning s) ep.cycles
  have htail : threadMain (runningLoop (startRunning s) ep.cycles).1 rest =
      threadShutdown (runningLoop (startRunning s) ep.cycles).1 :=
    threadMain_error _ _ hrun.2
  have hunfold : threadMain s (ep :: rest) =
      ((threadShutdown (runningLoop (startRunning s) ep.cycles).1).1,
       (runningLoop (startRunning s) ep.cycles).2.map ThreadEvent.cycle ++
         (threadShutdown (runningLoop (startRunning s) ep.cycles).1).2) := by
    rw [threadMain, if_neg (by simp [hok])]
    simp only [runEpisode, harm, htail]
    rfl
  have hsd : (threadShutdown (runningLoop (startRunning s) ep.cycles).1).2 =
      [ThreadEvent.setThreadError,
       ThreadEvent.closeSocket s.td.socketid, ThreadEvent.setInactive] := by
    unfold threadShutdown
    rw [hrun.2, hpres.1]
    rfl
  rw [hunfold, hsd]
  refine ⟨?_, ?_, ?_, ?_, ?_⟩
  · rw [List.countP_append, List.countP_map]
    have hco : (isCycleEvent ∘ ThreadEvent.cycle) = fun _ => true :=
      funext fun r => rfl
    rw [hco]
    simp [isCycleEvent, hrun.1]
  · rw [List.countP_append, List.countP_map]
    have hco : (isErrorEvent ∘ ThreadEvent.cycle) = fun _ => false :=
      funext fun r => rfl
    rw [hco]
    simp [isErrorEvent]
  · show ((runningLoop (startRunning s) ep.cycles).1.threadError ||
      (runningLoop (startRunning s) ep.cycles).1.initError) = true
    rw [hrun.2, hpres.2]
    simp
  · rfl
  · simp

theorem buildBuffer_cmd (s : ThreadState) (c : Nat) (inp : CycleInput) :
    buildBuffer { s with td := { s.td with cmdid := c } } inp =
      buildBuffer s inp := rfl

theorem runningLoop_cmd_independent (s : ThreadState) (c : Nat)
    (cycles : List CycleInput) :
    (runningLoop { s with td := { s.td with cmdid := c } } cycles).2 =
      (runningLoop s cycles).2 := by
  induction cycles generalizing s with
  | nil => rfl
  | cons inp rest ih =>
    rw [runningLoop, runningLoop]
    by_cases hc : inp.sdrActive && !s.initError
    · rw [if_pos hc, if_pos hc]
      simp only [List.cons.injEq]
      exact ⟨rfl, ih (runCycle s inp).1⟩
    · rw [if_neg hc, if_neg hc]

/-- C7: the change-destination command is acted on only while the worker is
not running: an ArmedWaiting poll with the bit pending closes the current
socket, binds the newly configured one and clears the command bit, whereas
the Running loop leaves the command bits untouched and the frames it
produces are independent of them. -/
theorem change_port_only_when_stopped (td : ThreadSocketData) (p : PollInput)
    (s : ThreadState) (cycles : List CycleInput) (c : Nat)
    (hcmd : td.cmdid &&& VBITCHANGEPORT ≠ 0) :
    (armedPoll td p).2 =
      [ThreadEvent.closeSocket td.socketid,
       ThreadEvent.bindSocket p.newSocket] ∧
    (armedPoll td p).1.socketid = p.newSocket ∧
    (armedPoll td p).1.cmdid &&& VBITCHANGEPORT = 0 ∧
    (runningLoop s cycles).1.td.cmdid = s.td.cmdid ∧
    (runningLoop { s with td := { s.td with cmdid := c } } cycles).2 =
      (runningLoop s cycles).2 := by
  have ha : armedPoll td p =
      ({ td with socketid := p.newSocket,
                 cmdid := td.cmdid &&& (255 ^^^ VBITCHANGEPORT) },
       [ThreadEvent.closeSocket td.socketid,
        ThreadEvent.bindSocket p.newSocket]) := by
    unfold armedPoll
    rw [if_pos hcmd]
  refine ⟨by rw [ha], by rw [ha], ?_, ?_,
    runningLoop_cmd_independent s c cycles⟩
  · rw [ha]
    show (td.cmdid &&& (255 ^^^ VBITCHANGEPORT)) &&& VBITCHANGEPORT = 0
    rw [Nat.and_assoc]
    simp [show (255 ^^^ VBITCHANGEPORT) &&& VBITCHANGEPORT = 0 from by decide]
  · rw [(runningLoop_preserves s cycles).1]

theorem change_port_only_when_stopped_witness :
    (armedPoll cmdTD samplePoll).2 =
      [ThreadEvent.closeSocket cmdTD.socketid,
       ThreadEvent.bindSocket samplePoll.newSocket] ∧
    (armedPoll cmdTD samplePoll).1.socketid = samplePoll.newSocket ∧
    (armedPoll cmdTD samplePoll).1.cmdid &&& VBITCHANGEPORT = 0 ∧
    (runningLoop sampleState [sampleCycle]).1.td.cmdid =
      sampleState.td.cmdid ∧
    (runningLoop { sampleState with
        td := { sampleState.td with cmdid := 1 } } [sampleCycle]).2 =
      (runningLoop sampleState [sampleCycle]).2 :=
  change_port_only_when_stopped cmdTD samplePoll sampleState [sampleCycle] 1
    (by decide)

theorem send_failure_fatal_witness :
    (threadMain sampleState [sampleEpisode]).2.countP isCycleEvent = 1 ∧
    (threadMain sampleState [sampleEpisode]).2.countP isErrorEvent = 1 ∧
    (threadMain sampleState [sampleEpisode]).1.threadError = true ∧
    (threadMain sampleState [sampleEpisode]).1.td.active = false ∧
    ThreadEvent.closeSocket sampleState.td.socketid ∈
      (threadMain sampleState [sampleEpisode]).2 :=
  send_failure_fatal sampleState sampleEpisode [] [] failingCycle []
    rfl (by simp) (by decide) (by decide) (by decide) (by decide) (by decide)

end Saturn
